import Mathlib

/-!
Verification development for the EvolveUI context assembly engine and its
frontend panels. Frontend components (ChatPanel, FileUploadPanel,
KnowledgePanel) are embedded directly from the TypeScript source under
`frontend/src/components`. The backend context-assembly engine (intent
detector, rate limiter / circuit state, search orchestrator, vector
knowledge store client, context assembler) ships outside this source tree;
those components are modelled from the specification, as marked on each
definition.
-/

namespace EvolveUI

/-! ## Character-level string primitives

The TypeScript code uses `trim()`, `toLowerCase()` and `split(sep)` on
JavaScript strings. We embed them as structural recursion over the
character list of a Lean `String`, so that they evaluate inside the
kernel. -/

/-- Embedding of JavaScript `s.toLowerCase()` (ASCII range). -/
def lowerStr (s : String) : String :=
  ⟨s.data.map Char.toLower⟩

/-- Embedding of JavaScript `s.trim()`: drop whitespace from both ends. -/
def trimStr (s : String) : String :=
  ⟨((s.data.dropWhile Char.isWhitespace).reverse.dropWhile Char.isWhitespace).reverse⟩

/-- Auxiliary splitter: accumulates the current chunk and finished chunks. -/
def splitOnCharAux (c : Char) : List Char → List (List Char) → List Char → List (List Char)
  | [], acc, cur => (cur.reverse :: acc).reverse
  | x :: xs, acc, cur =>
    if x = c then splitOnCharAux c xs (cur.reverse :: acc) []
    else splitOnCharAux c xs acc (x :: cur)

/-- Embedding of JavaScript `s.split(c)` on the character list. Like its
JavaScript counterpart it never returns an empty list: for an empty input
the result is `[[]]`. -/
def splitOnCharL (c : Char) (l : List Char) : List (List Char) :=
  splitOnCharAux c l [] []

/-- Does the list start with the given pattern? (`Bool`-valued, structural.) -/
def startsWithL {α : Type} [DecidableEq α] : List α → List α → Bool
  | [], _ => true
  | _ :: _, [] => false
  | p :: ps, x :: xs => p = x && startsWithL ps xs

/-- Does the pattern occur contiguously anywhere in the list? -/
def containsSeq {α : Type} [DecidableEq α] (pat : List α) : List α → Bool
  | [] => pat.isEmpty
  | x :: xs => startsWithL pat (x :: xs) || containsSeq pat xs

/-! ## FileUploadPanel (`frontend/src/components/files/FileUploadPanel.tsx`)

`handleFileSelect` filters the chosen files by extension against the
supported-types list and sets the error banner when any chosen file has an
unsupported extension. -/

/-- Embedding of `'.' + file.name.split('.').pop()?.toLowerCase()` from
`handleFileSelect`. `split` never yields an empty array, so `pop` is the
last chunk. -/
def fileExtension (name : String) : String :=
  "." ++ lowerStr ⟨(splitOnCharL '.' name.data).getLastD []⟩

/-- The component state that `handleFileSelect` touches: `selectedFiles`,
`error` and `results`. -/
structure FileUploadState where
  selectedFiles : List String
  results : List String
  error : Option String
deriving DecidableEq, Repr

/-- Embedding of `FileUploadPanel.handleFileSelect`: `validFiles` keep a
supported extension, `invalidFiles` the rest; an error message is set iff
some file was invalid; `selectedFiles` becomes `validFiles` and `results`
is cleared. -/
def handleFileSelect (supportedTypes : List String) (files : List String)
    (st : FileUploadState) : FileUploadState :=
  let validFiles := files.filter (fun f => supportedTypes.contains (fileExtension f))
  let invalidFiles := files.filter (fun f => !supportedTypes.contains (fileExtension f))
  { st with
    selectedFiles := validFiles
    error :=
      if invalidFiles.length > 0 then
        some ("Unsupported file types: " ++ String.intercalate ", " invalidFiles)
      else none
    results := [] }

/-! ## ChatPanel (`frontend/src/components/chat/ChatPanel.tsx`)

`sendMessage` first checks `if (!inputValue.trim()) return;`. The rest of
the handler creates a conversation when none is selected, appends the user
message, issues backend requests and appends the assistant reply. Backend
responses are supplied through an oracle. -/

/-- A chat message as kept in the `messages` state. -/
structure ChatMessage where
  role : String
  content : String
deriving DecidableEq, Repr

/-- One backend HTTP request issued by `sendMessage`. -/
inductive BackendCall where
  | createConversation
  | addMessage (convId role content : String)
  | chat (messages : List ChatMessage)
deriving DecidableEq, Repr

/-- The ChatPanel state that `sendMessage` touches. `calls` is the log of
backend requests issued so far. -/
structure ChatState where
  messages : List ChatMessage
  inputValue : String
  conversationId : Option String
  isLoading : Bool
  calls : List BackendCall
deriving DecidableEq, Repr

/-- Responses of the backend during one `sendMessage` run:
`newConversationId` is the result of `createNewConversation` (`none` on
failure), `chatReply` the `data.message.content` of the chat endpoint
(`none` when the request fails or carries no message). -/
structure BackendOracle where
  newConversationId : Option String
  chatReply : Option String

/-- Embedding of `ChatPanel.sendMessage`. The first line of the source is
`if (!inputValue.trim()) return;`, embedded as the blank guard; afterwards
the handler creates a conversation when none is selected, appends the user
message, clears the input, saves the user message, issues the chat request
and appends the assistant (or error) reply. -/
def sendMessage (o : BackendOracle) (st : ChatState) : ChatState :=
  if trimStr st.inputValue = "" then st
  else
    let userMessage : ChatMessage := ⟨"user", st.inputValue⟩
    let convCalls : List BackendCall :=
      if st.conversationId.isNone then [BackendCall.createConversation] else []
    let currentConversationId :=
      match st.conversationId with
      | some c => some c
      | none => o.newConversationId
    let saveCalls : List BackendCall :=
      match currentConversationId with
      | some c => [BackendCall.addMessage c "user" userMessage.content]
      | none => []
    let msgs1 := st.messages ++ [userMessage]
    let st1 : ChatState :=
      { messages := msgs1
        inputValue := ""
        conversationId := currentConversationId
        isLoading := true
        calls := st.calls ++ convCalls ++ saveCalls ++ [BackendCall.chat msgs1] }
    match o.chatReply with
    | some reply =>
      let saveCalls2 : List BackendCall :=
        match currentConversationId with
        | some c => [BackendCall.addMessage c "assistant" reply]
        | none => []
      { st1 with
        messages := st1.messages ++ [⟨"assistant", reply⟩]
        isLoading := false
        calls := st1.calls ++ saveCalls2 }
    | none =>
      { st1 with
        messages := st1.messages ++
          [⟨"assistant", "Sorry, I encountered an error. Please make sure Ollama is running and try again."⟩]
        isLoading := false }

/-! ## Context assembly engine — data model

The backend engine is not part of this source tree; the definitions below
are modelled from the specification (§3–§7), as marked. -/

/-- Modelled from the spec: `SearchResult` value type produced by a
Provider Adapter (§3). -/
structure SearchResult where
  title : String
  url : String
  snippet : String
  providerId : String
deriving DecidableEq, Repr

/-- Modelled from the spec: URL normalization used for deduplication
(§4.4 "deduplicated by normalized URL"): trim and lowercase. -/
def normalizeUrl (u : String) : String :=
  lowerStr (trimStr u)

/-- Modelled from the spec: the `ProviderError` kinds of §4.2. -/
inductive ProviderErrorKind where
  | notConfigured
  | authFailed
  | rateLimited
  | timeout
  | upstream
  | network
deriving DecidableEq, Repr

/-- Modelled from the spec: a provider failure, tagged with its source. -/
structure ProviderError where
  providerId : String
  kind : ProviderErrorKind
deriving DecidableEq, Repr

/-- Modelled from the spec: the slice of `ProviderConfig` (§3) that the
orchestrator consults. -/
structure ProviderConfig where
  id : String
  enabled : Bool
deriving DecidableEq, Repr

instance {ε α : Type} [DecidableEq ε] [DecidableEq α] : DecidableEq (Except ε α) := fun x y =>
  match x, y with
  | Except.ok a, Except.ok b => decidable_of_iff (a = b) (by simp)
  | Except.ok _, Except.error _ => isFalse (by simp)
  | Except.error _, Except.ok _ => isFalse (by simp)
  | Except.error e, Except.error f => decidable_of_iff (e = f) (by simp)

/-- Modelled from the spec: one registered provider together with the
outcome of its (rate-limiter-gated) invocation for the current request —
either a result list or a `ProviderError` (a local gate rejection appears
as `rateLimited`). The configured fallback order is the list order. -/
structure Provider where
  cfg : ProviderConfig
  response : Except ProviderError (List SearchResult)
deriving DecidableEq, Repr

/-! ## Intent Detector (§4.1), modelled from the spec -/

/-- Modelled from the spec: an `IntentDecision` (§3); the confidence is a
rational in `[0,1]`. -/
structure IntentDecision where
  shouldSearch : Bool
  confidence : ℚ
  matchedIndicators : List String
  suggestedQuery : String
deriving Repr

/-- Modelled from the spec: temporal indicator words (§4.1). -/
def temporalIndicators : List String := ["today", "latest", "current"]

/-- Modelled from the spec: interrogative indicator patterns (§4.1). -/
def interrogativeIndicators : List String := ["what is", "who is", "price of"]

/-- Modelled from the spec: topic-category indicator words (§4.1). -/
def topicIndicators : List String := ["weather", "stocks", "news"]

/-- Modelled from the spec: all lexical indicator classes, temporal first. -/
def allIndicators : List String :=
  temporalIndicators ++ interrogativeIndicators ++ topicIndicators

/-- Modelled from the spec: query normalization (§3): lowercased, trimmed,
whitespace-collapsed; represented as the list of words. -/
def normalizeQuery (q : String) : List String :=
  (splitOnCharL ' ' (lowerStr (trimStr q)).data).filterMap
    (fun w => if w.isEmpty then none else some (⟨w⟩ : String))

/-- Modelled from the spec: a lexical indicator matches a query when its
word sequence occurs contiguously in the normalized query's words. -/
def indicatorMatches (ind : String) (q : String) : Bool :=
  containsSeq (normalizeQuery ind) (normalizeQuery q)

/-- Modelled from the spec: conversational filler words stripped from the
original text to form `suggestedQuery` (§4.1). -/
def fillerWords : List String := ["please", "can", "you", "tell", "me"]

/-- Modelled from the spec: the `thresholdConstant` of the confidence
formula (§4.1). Two matched indicators saturate the confidence. -/
def thresholdConstant : ℚ := 2

/-- Modelled from the spec: the configured decision threshold (default
0.5, §4.1). -/
def configuredThreshold : ℚ := 1 / 2

/-- Modelled from the spec: `IntentDetector.detect` (§4.1). Confidence is
`min 1 (matchedIndicatorCount / thresholdConstant)`; `shouldSearch` holds
iff the confidence reaches the configured threshold. -/
def detect (q : String) : IntentDecision :=
  let matched := allIndicators.filter (fun ind => indicatorMatches ind q)
  let confidence : ℚ := min 1 ((matched.length : ℚ) / thresholdConstant)
  { shouldSearch := decide (configuredThreshold ≤ confidence)
    confidence := confidence
    matchedIndicators := matched
    suggestedQuery :=
      String.intercalate " "
        ((normalizeQuery q).filter (fun w => !fillerWords.contains w)) }

/-! ## Rate Limiter / Circuit State (§4.3), modelled from the spec -/

/-- Modelled from the spec: the circuit phase of one provider (§4.3):
closed, open since a given instant, or half-open with the single probe
outstanding. -/
inductive CircuitPhase where
  | closed
  | opened (openedAt : Nat)
  | halfOpen
deriving DecidableEq, Repr

/-- Modelled from the spec: timing and threshold configuration of the
rate limiter (§4.3); times in milliseconds. -/
structure CircuitConfig where
  minRequestInterval : Nat
  failureThreshold : Nat
  cooldown : Nat
deriving DecidableEq, Repr

/-- Modelled from the spec: the defaults of §4.3 — threshold 3 failures,
cooldown 60 s. -/
def defaultCircuitConfig : CircuitConfig :=
  { minRequestInterval := 1000, failureThreshold := 3, cooldown := 60000 }

/-- Modelled from the spec: per-provider `ProviderState` (§3): last
attempt time and consecutive-failure count, plus the circuit phase. -/
structure ProviderState where
  lastAttempt : Option Nat
  failures : Nat
  phase : CircuitPhase
deriving DecidableEq, Repr

/-- Modelled from the spec: the initial state of a provider. -/
def initialProviderState : ProviderState :=
  { lastAttempt := none, failures := 0, phase := CircuitPhase.closed }

/-- Modelled from the spec: `tryAcquire` (§4.3): false within
`minRequestInterval` of the last attempt; false while the circuit is open
and the cooldown has not elapsed; once it has elapsed the circuit turns
half-open and exactly one probe is allowed; while half-open (probe
outstanding) further acquisition is refused. On success, "now" is
recorded as the last attempt. -/
def tryAcquire (cfg : CircuitConfig) (now : Nat) (st : ProviderState) :
    Bool × ProviderState :=
  match st.phase with
  | CircuitPhase.opened t =>
    if now < t + cfg.cooldown then (false, st)
    else (true, { st with phase := CircuitPhase.halfOpen, lastAttempt := some now })
  | CircuitPhase.halfOpen => (false, st)
  | CircuitPhase.closed =>
    match st.lastAttempt with
    | some last =>
      if now < last + cfg.minRequestInterval then (false, st)
      else (true, { st with lastAttempt := some now })
    | none => (true, { st with lastAttempt := some now })

/-- Modelled from the spec: `recordFailure` (§4.3): increment the
consecutive-failure counter; at the threshold the circuit opens at the
current instant (a failed half-open probe reopens it the same way). -/
def recordFailure (cfg : CircuitConfig) (now : Nat) (st : ProviderState) :
    ProviderState :=
  let f := st.failures + 1
  if cfg.failureThreshold ≤ f then
    { st with failures := f, phase := CircuitPhase.opened now }
  else
    { st with failures := f }

/-- Modelled from the spec: `recordSuccess` (§4.3): reset the failure
counter and close the circuit. -/
def recordSuccess (st : ProviderState) : ProviderState :=
  { st with failures := 0, phase := CircuitPhase.closed }

/-! ## Search Orchestrator (§4.4), modelled from the spec -/

/-- Modelled from the spec: the result list of a successful response. -/
def okResults (p : Provider) : Option (List SearchResult) :=
  match p.response with
  | Except.ok rs => some rs
  | Except.error _ => none

/-- Modelled from the spec: the error of a failed response. -/
def errOf (p : Provider) : Option ProviderError :=
  match p.response with
  | Except.ok _ => none
  | Except.error e => some e

/-- Modelled from the spec: the successful results of the enabled
providers, concatenated in configured fallback (priority) order. -/
def combinedResults (ps : List Provider) : List SearchResult :=
  ((ps.filter (fun p => p.cfg.enabled)).filterMap okResults).flatten

/-- Modelled from the spec: the collected errors of the enabled providers
in configured order. -/
def collectedErrors (ps : List Provider) : List ProviderError :=
  (ps.filter (fun p => p.cfg.enabled)).filterMap errOf

/-- Modelled from the spec: deduplication by normalized URL, preserving
the first occurrence (§4.4); `seen` holds the normalized URLs kept so
far. -/
def dedupGo (seen : List String) : List SearchResult → List SearchResult
  | [] => []
  | r :: rest =>
    if seen.contains (normalizeUrl r.url) then dedupGo seen rest
    else r :: dedupGo (normalizeUrl r.url :: seen) rest

/-- Modelled from the spec: deduplicate a merged result list by
normalized URL, keeping first occurrences. -/
def dedupByUrl (rs : List SearchResult) : List SearchResult :=
  dedupGo [] rs

/-- Modelled from the spec: `searchAll` (§4.4). Every enabled provider is
attempted; failures are collected, never raised; successful results are
merged in priority order and deduplicated by normalized URL. Disabled
providers are skipped entirely. -/
def searchAll (ps : List Provider) : List SearchResult × List ProviderError :=
  (dedupByUrl (combinedResults ps), collectedErrors ps)

/-- Modelled from the spec: look up the completed response of one
provider in a completion log (first match). -/
def findResponse (id : String) :
    List (String × Except ProviderError (List SearchResult)) →
    Option (Except ProviderError (List SearchResult))
  | [] => none
  | (i, r) :: rest => if i = id then some r else findResponse id rest

/-- Modelled from the spec (§5): the orchestrator's merge over a
completion log. Completions arrive in arbitrary order; the merge walks
the configured provider list in priority order and looks each provider's
response up in the log, so arrival order is irrelevant. -/
def mergeByPriority (configured : List ProviderConfig)
    (completions : List (String × Except ProviderError (List SearchResult))) :
    List SearchResult × List ProviderError :=
  let gathered := (configured.filter (fun c => c.enabled)).filterMap
    (fun c => (findResponse c.id completions).map (fun r => Provider.mk c r))
  (dedupByUrl (combinedResults gathered), collectedErrors gathered)

/-! ## Vector Knowledge Store Client (§4.5), modelled from the spec -/

/-- Modelled from the spec: the source type of a knowledge hit (§3). -/
inductive SourceKind where
  | knowledge
  | conversation
deriving DecidableEq, Repr

/-- Modelled from the spec: one raw nearest-neighbour answer of the
persisted vector index (§6): id, text, raw distance and an insertion
sequence number (larger = inserted more recently). -/
structure RawIndexEntry where
  documentId : String
  text : String
  distance : ℚ
  insertionSeq : Nat
  sourceType : SourceKind
deriving Repr

/-- Modelled from the spec: a `KnowledgeHit` (§3); `recency` is the
insertion sequence number. -/
structure KnowledgeHit where
  documentId : String
  text : String
  similarityScore : ℚ
  recency : Nat
  sourceType : SourceKind
deriving Repr

/-- Modelled from the spec: map one raw index answer to a hit with
`similarityScore = 1 - distance` (§4.5). -/
def toKnowledgeHit (e : RawIndexEntry) : KnowledgeHit :=
  { documentId := e.documentId
    text := e.text
    similarityScore := 1 - e.distance
    recency := e.insertionSeq
    sourceType := e.sourceType }

/-- Modelled from the spec: the retrieval order (§4.5): higher similarity
first; ties broken by insertion recency, most recent first. -/
def hitGE (a b : KnowledgeHit) : Prop :=
  b.similarityScore < a.similarityScore ∨
    (a.similarityScore = b.similarityScore ∧ b.recency ≤ a.recency)

instance : DecidableRel hitGE := fun a b => by
  unfold hitGE
  infer_instance

instance : IsTotal KnowledgeHit hitGE :=
  ⟨fun a b => by
    unfold hitGE
    rcases lt_trichotomy a.similarityScore b.similarityScore with h | h | h
    · rcases Nat.le_total b.recency a.recency with hr | hr
      · exact Or.inr (Or.inl h)
      · exact Or.inr (Or.inl h)
    · rcases Nat.le_total b.recency a.recency with hr | hr
      · exact Or.inl (Or.inr ⟨h, hr⟩)
      · exact Or.inr (Or.inr ⟨h.symm, hr⟩)
    · exact Or.inl (Or.inl h)⟩

instance : IsTrans KnowledgeHit hitGE :=
  ⟨fun a b c hab hbc => by
    unfold hitGE at *
    rcases hab with h1 | ⟨h1, r1⟩
    · rcases hbc with h2 | ⟨h2, r2⟩
      · exact Or.inl (h2.trans h1)
      · exact Or.inl (h2 ▸ h1)
    · rcases hbc with h2 | ⟨h2, r2⟩
      · exact Or.inl (h1 ▸ h2)
      · exact Or.inr ⟨h1.trans h2, r2.trans r1⟩⟩

/-- Modelled from the spec: `retrieve` (§4.5/§6). The index's raw answers
are mapped to hits (`similarityScore = 1 - distance`), sorted by
similarity descending with recency tie-break, and cut to `topK`. -/
def retrieve (raw : List RawIndexEntry) (topK : Nat) : List KnowledgeHit :=
  (List.insertionSort hitGE (raw.map toKnowledgeHit)).take topK

/-- Modelled from the spec (§4.5, §7): knowledge retrieval over a fallible
index: an embedding or index failure degrades to an empty hit list. -/
def retrieveSafe (store : Except String (List RawIndexEntry)) (topK : Nat) :
    List KnowledgeHit :=
  match store with
  | Except.error _ => []
  | Except.ok raw => retrieve raw topK

/-! ## Context Assembler (§4.6), modelled from the spec -/

/-- Modelled from the spec: the type tag of a `ContextSource` (§3). -/
inductive ContextSourceType where
  | web_search
  | knowledge
  | conversation
deriving DecidableEq, Repr

/-- Modelled from the spec: a `ContextSource` (§3), normalized to
`{type, title, url?, snippet, relevance}`. -/
structure ContextSource where
  type : ContextSourceType
  title : String
  url : Option String
  snippet : String
  relevance : ℚ
deriving Repr

/-- Modelled from the spec: an `AssembledContext` (§3). -/
structure AssembledContext where
  sources : List ContextSource
  searchUsed : Bool
  ragUsed : Bool
  totalCharacters : Nat
deriving Repr

/-- Modelled from the spec: the fixed relevance constant of fresh search
results (§4.6, e.g. 0.8). -/
def searchRelevance : ℚ := 8 / 10

/-- Modelled from the spec: the minimum similarity threshold for
knowledge hits (§4.6, default 0.6). -/
def minSimilarity : ℚ := 6 / 10

/-- Modelled from the spec: a search result as a context source. -/
def searchSource (r : SearchResult) : ContextSource :=
  { type := ContextSourceType.web_search
    title := r.title
    url := some r.url
    snippet := r.snippet
    relevance := searchRelevance }

/-- Modelled from the spec: a knowledge hit as a context source. -/
def knowledgeSource (h : KnowledgeHit) : ContextSource :=
  { type := ContextSourceType.knowledge
    title := h.documentId
    url := none
    snippet := h.text
    relevance := h.similarityScore }

/-- Modelled from the spec: a recent conversation turn as a context
source; always lowest priority (§4.6), hence relevance 0. -/
def turnSource (t : String) : ContextSource :=
  { type := ContextSourceType.conversation
    title := ""
    url := none
    snippet := t
    relevance := 0 }

/-- Modelled from the spec: the ranking order of merged sources: higher
relevance first. -/
def relGE (a b : ContextSource) : Prop :=
  b.relevance ≤ a.relevance

instance : DecidableRel relGE := fun a b => by
  unfold relGE
  infer_instance

instance : IsTotal ContextSource relGE :=
  ⟨fun a b => le_total b.relevance a.relevance⟩

instance : IsTrans ContextSource relGE :=
  ⟨fun _ _ _ hab hbc => le_trans hbc hab⟩

/-- Modelled from the spec: whether a context source is a knowledge hit. -/
def isKnowledgeCS (s : ContextSource) : Bool :=
  match s.type with
  | ContextSourceType.knowledge => true
  | _ => false

/-- Modelled from the spec (§4.6): the merged, ordered source list before
truncation: knowledge hits above the minimum similarity threshold
interleaved with search results by relevance, conversation turns appended
last as lowest priority. -/
def mergedSources (searchResults : List SearchResult)
    (knowledgeHits : List KnowledgeHit) (recentTurns : List String) :
    List ContextSource :=
  List.insertionSort relGE
    (searchResults.map searchSource ++
      (knowledgeHits.filter
        (fun h => decide (minSimilarity ≤ h.similarityScore))).map knowledgeSource) ++
    recentTurns.map turnSource

/-- Modelled from the spec: `assemble` (§4.6). Truncates the merged
ordered list to `budget` by dropping lowest-ranked entries first;
`searchUsed` iff the orchestrator ran and returned a result, `ragUsed`
iff a knowledge hit survived truncation. -/
def assemble (intent : IntentDecision) (searchResults : List SearchResult)
    (knowledgeHits : List KnowledgeHit) (recentTurns : List String)
    (budget : Nat) : AssembledContext :=
  let merged := mergedSources searchResults knowledgeHits recentTurns
  let sources := merged.take budget
  { sources := sources
    searchUsed := intent.shouldSearch && !searchResults.isEmpty
    ragUsed := sources.any isKnowledgeCS
    totalCharacters := (sources.map (fun s => s.snippet.length)).sum }

/-- Modelled from the spec: `detectAndSearch` (§6), the single entry
point: detect intent, invoke the orchestrator when search-worthy,
retrieve knowledge (degrading failures to empty hits), and assemble. -/
def detectAndSearch (query : String) (ps : List Provider)
    (store : Except String (List RawIndexEntry)) (topK : Nat)
    (recentTurns : List String) (budget : Nat) : AssembledContext :=
  let intent := detect query
  let searchResults := if intent.shouldSearch then (searchAll ps).1 else []
  let hits := retrieveSafe store topK
  assemble intent searchResults hits recentTurns budget

/-! ## Claim theorems -/

/-- C9: for every input string that is empty or consists only of
whitespace (i.e. whose trim is empty, the guard the source tests),
`ChatPanel.sendMessage` returns immediately as a no-op: the state is
unchanged, so the messages list is unchanged, no conversation is created,
and no backend request is issued. -/
theorem sendMessage_blank_is_noop (o : BackendOracle) (st : ChatState)
    (h : trimStr st.inputValue = "") :
    sendMessage o st = st ∧
    (sendMessage o st).messages = st.messages ∧
    (sendMessage o st).conversationId = st.conversationId ∧
    (sendMessage o st).calls = st.calls := by
  have heq : sendMessage o st = st := by
    unfold sendMessage
    simp [h]
  exact ⟨heq, by rw [heq], by rw [heq], by rw [heq]⟩

/-- C9 witness: a concrete whitespace-only input leaves a concrete state
untouched. -/
theorem sendMessage_blank_is_noop_witness :
    trimStr "   " = "" ∧
    sendMessage ⟨none, none⟩ ⟨[], "   ", none, false, []⟩ =
      ⟨[], "   ", none, false, []⟩ :=
  ⟨by decide,
   (sendMessage_blank_is_noop ⟨none, none⟩ ⟨[], "   ", none, false, []⟩ (by decide)).1⟩

/-- C10: after `FileUploadPanel.handleFileSelect`, the selected-files
state holds exactly the chosen files whose lowercased extension is in the
supported-types list, in original order, and the error state is non-null
iff at least one chosen file had an unsupported extension. -/
theorem handleFileSelect_spec (supportedTypes files : List String)
    (st : FileUploadState) :
    (handleFileSelect supportedTypes files st).selectedFiles =
      files.filter (fun f => supportedTypes.contains (fileExtension f)) ∧
    ((handleFileSelect supportedTypes files st).error ≠ none ↔
      ∃ f ∈ files, supportedTypes.contains (fileExtension f) = false) := by
  refine ⟨rfl, ?_⟩
  unfold handleFileSelect
  by_cases hpos :
      (files.filter (fun f => !supportedTypes.contains (fileExtension f))).length > 0
  · simp only [hpos, if_pos]
    constructor
    · intro _
      have hne : files.filter (fun f => !supportedTypes.contains (fileExtension f)) ≠ [] :=
        List.ne_nil_of_length_pos hpos
      obtain ⟨f, hf⟩ := List.exists_mem_of_ne_nil _ hne
      have := List.mem_filter.mp hf
      exact ⟨f, this.1, by simpa using this.2⟩
    · intro _
      simp
  · simp only [hpos, if_neg]
    constructor
    · intro hcon
      exact absurd rfl hcon
    · rintro ⟨f, hf, hext⟩
      exfalso
      apply hpos
      refine List.length_pos.mpr (List.ne_nil_of_mem (a := f) ?_)
      exact List.mem_filter.mpr ⟨hf, by simpa using hext⟩

/-- C10 witness: with supported type `.txt`, choosing `a.txt` and `b.exe`
selects exactly `a.txt` and raises the error banner. -/
theorem handleFileSelect_spec_witness :
    (handleFileSelect [".txt"] ["a.txt", "b.exe"] ⟨[], [], none⟩).selectedFiles =
      ["a.txt"] ∧
    (handleFileSelect [".txt"] ["a.txt", "b.exe"] ⟨[], [], none⟩).error ≠ none :=
  ⟨(handleFileSelect_spec [".txt"] ["a.txt", "b.exe"] ⟨[], [], none⟩).1.trans (by decide),
   (handleFileSelect_spec [".txt"] ["a.txt", "b.exe"] ⟨[], [], none⟩).2.mpr
     ⟨"b.exe", by decide, by decide⟩⟩

/-- When every enabled provider failed, the concatenation of successful
results is empty. -/
theorem combinedResults_eq_nil_of_all_fail (ps : List Provider)
    (hfail : ∀ p ∈ ps, p.cfg.enabled = true → ∃ e, p.response = Except.error e) :
    combinedResults ps = [] := by
  unfold combinedResults
  have hnil : (ps.filter (fun p => p.cfg.enabled)).filterMap okResults = [] := by
    refine List.filterMap_eq_nil_iff.mpr ?_
    intro p hp
    obtain ⟨hmem, hen⟩ := List.mem_filter.mp hp
    obtain ⟨e, he⟩ := hfail p hmem (by simpa using hen)
    simp [okResults, he]
  simp [hnil]

/-- C1: for every query and every combination of provider or
knowledge-store failures, `detectAndSearch` does not fail. When every
enabled provider fails, `searchAll` returns the empty result list
together with the collected errors, and `detectAndSearch` still returns
an assembled context (built from no search results and no knowledge
hits); when all providers are disabled, `searchAll` returns the empty
result list and no errors. -/
theorem detectAndSearch_never_fails (query : String) (ps : List Provider)
    (msg : String) (topK : Nat) (recentTurns : List String) (budget : Nat) :
    ((∀ p ∈ ps, p.cfg.enabled = true → ∃ e, p.response = Except.error e) →
      (searchAll ps).1 = [] ∧ (searchAll ps).2 = collectedErrors ps ∧
      detectAndSearch query ps (Except.error msg) topK recentTurns budget =
        assemble (detect query) [] [] recentTurns budget) ∧
    ((∀ p ∈ ps, p.cfg.enabled = false) → searchAll ps = ([], [])) := by
  constructor
  · intro hfail
    have hcomb : combinedResults ps = [] := combinedResults_eq_nil_of_all_fail ps hfail
    have h1 : (searchAll ps).1 = [] := by
      simp [searchAll, dedupByUrl, hcomb, dedupGo]
    refine ⟨h1, rfl, ?_⟩
    unfold detectAndSearch retrieveSafe
    simp [h1]
  · intro hdis
    have hfil : ps.filter (fun p => p.cfg.enabled) = [] := by
      refine List.filter_eq_nil_iff.mpr ?_
      intro p hp
      simp [hdis p hp]
    simp [searchAll, combinedResults, collectedErrors, dedupByUrl, hfil, dedupGo]

/-- C1 witness: one enabled provider that timed out yields no results and
exactly its error; a single disabled provider yields no results and no
errors. -/
theorem detectAndSearch_never_fails_witness :
    ((searchAll [⟨⟨"duckduckgo", true⟩,
        Except.error ⟨"duckduckgo", ProviderErrorKind.timeout⟩⟩]).1 = [] ∧
      (searchAll [⟨⟨"duckduckgo", true⟩,
        Except.error ⟨"duckduckgo", ProviderErrorKind.timeout⟩⟩]).2 =
        collectedErrors [⟨⟨"duckduckgo", true⟩,
          Except.error ⟨"duckduckgo", ProviderErrorKind.timeout⟩⟩] ∧
      detectAndSearch "latest news" [⟨⟨"duckduckgo", true⟩,
          Except.error ⟨"duckduckgo", ProviderErrorKind.timeout⟩⟩]
          (Except.error "index down") 3 [] 3 =
        assemble (detect "latest news") [] [] [] 3) ∧
    searchAll [⟨⟨"google", false⟩, Except.ok []⟩] = ([], []) :=
  ⟨(detectAndSearch_never_fails "latest news"
      [⟨⟨"duckduckgo", true⟩, Except.error ⟨"duckduckgo", ProviderErrorKind.timeout⟩⟩]
      "index down" 3 [] 3).1
    (by
      intro p hp hen
      have hp' : p = ⟨⟨"duckduckgo", true⟩,
          Except.error ⟨"duckduckgo", ProviderErrorKind.timeout⟩⟩ := by
        simpa using hp
      subst hp'
      exact ⟨⟨"duckduckgo", ProviderErrorKind.timeout⟩, rfl⟩),
   (detectAndSearch_never_fails "latest news"
      [⟨⟨"google", false⟩, Except.ok []⟩] "index down" 3 [] 3).2
    (by decide)⟩

/-- Conversation-turn sources are pairwise ranked (they all carry
relevance 0). -/
theorem pairwise_turnSources (rt : List String) :
    (rt.map turnSource).Pairwise relGE := by
  induction rt with
  | nil => simp
  | cons a t ih =>
    refine List.Pairwise.cons ?_ ih
    intro b hb
    obtain ⟨x, _, hbx⟩ := List.mem_map.mp hb
    simp [relGE, ← hbx, turnSource]

/-- Every source entering the relevance sort has nonnegative relevance:
search results carry the fixed constant, knowledge hits passed the
minimum-similarity filter. -/
theorem nonneg_relevance_of_mem_presort (sr : List SearchResult)
    (kh : List KnowledgeHit) (a : ContextSource)
    (ha : a ∈ sr.map searchSource ++
      (kh.filter (fun h => decide (minSimilarity ≤ h.similarityScore))).map knowledgeSource) :
    0 ≤ a.relevance := by
  rcases List.mem_append.mp ha with h | h
  · obtain ⟨r, _, hr⟩ := List.mem_map.mp h
    rw [← hr]
    simp only [searchSource]
    norm_num [searchRelevance]
  · obtain ⟨k, hk, hkk⟩ := List.mem_map.mp h
    have hmin : minSimilarity ≤ k.similarityScore := by
      have := (List.mem_filter.mp hk).2
      simpa using this
    rw [← hkk]
    simp only [knowledgeSource]
    calc (0 : ℚ) ≤ minSimilarity := by norm_num [minSimilarity]
    _ ≤ k.similarityScore := hmin

/-- The merged, ordered source list of the assembler is sorted by
relevance (descending). -/
theorem mergedSources_sorted (sr : List SearchResult) (kh : List KnowledgeHit)
    (rt : List String) : (mergedSources sr kh rt).Sorted relGE := by
  unfold mergedSources
  refine List.pairwise_append.mpr ⟨List.sorted_insertionSort relGE _, pairwise_turnSources rt, ?_⟩
  intro a ha b hb
  obtain ⟨x, _, hbx⟩ := List.mem_map.mp hb
  have ha' := (List.perm_insertionSort relGE _).mem_iff.mp ha
  have h0 : 0 ≤ a.relevance := nonneg_relevance_of_mem_presort sr kh a ha'
  simp only [relGE, ← hbx, turnSource]
  exact h0

/-- C2: the sources of the assembled context never exceed the budget, and
the entries removed to satisfy the budget are exactly the lowest-ranked
entries of the merged ordered list: the kept sources followed by the
dropped entries reconstitute the merged list, and every dropped entry
ranks at or below every kept one. -/
theorem assemble_budget (intent : IntentDecision) (sr : List SearchResult)
    (kh : List KnowledgeHit) (rt : List String) (budget : Nat) :
    (assemble intent sr kh rt budget).sources.length ≤ budget ∧
    (assemble intent sr kh rt budget).sources ++ (mergedSources sr kh rt).drop budget =
      mergedSources sr kh rt ∧
    ∀ x ∈ (assemble intent sr kh rt budget).sources,
      ∀ y ∈ (mergedSources sr kh rt).drop budget, y.relevance ≤ x.relevance := by
  refine ⟨List.length_take_le budget _, List.take_append_drop budget _, ?_⟩
  intro x hx y hy
  exact (mergedSources_sorted sr kh rt).rel_of_mem_take_of_mem_drop hx hy

/-- C2 witness: a concrete assembly with two search results, one
knowledge hit and budget 2 keeps at most two sources, which together with
the dropped tail reconstitute the merged list. -/
theorem assemble_budget_witness :
    (assemble (detect "hi") [⟨"t1", "http://a", "s1", "p1"⟩, ⟨"t2", "http://b", "s2", "p1"⟩]
        [⟨"d1", "k1", 7/10, 0, SourceKind.knowledge⟩] ["turn"] 2).sources.length ≤ 2 ∧
    (assemble (detect "hi") [⟨"t1", "http://a", "s1", "p1"⟩, ⟨"t2", "http://b", "s2", "p1"⟩]
        [⟨"d1", "k1", 7/10, 0, SourceKind.knowledge⟩] ["turn"] 2).sources ++
      (mergedSources [⟨"t1", "http://a", "s1", "p1"⟩, ⟨"t2", "http://b", "s2", "p1"⟩]
        [⟨"d1", "k1", 7/10, 0, SourceKind.knowledge⟩] ["turn"]).drop 2 =
      mergedSources [⟨"t1", "http://a", "s1", "p1"⟩, ⟨"t2", "http://b", "s2", "p1"⟩]
        [⟨"d1", "k1", 7/10, 0, SourceKind.knowledge⟩] ["turn"] :=
  ⟨(assemble_budget (detect "hi") [⟨"t1", "http://a", "s1", "p1"⟩, ⟨"t2", "http://b", "s2", "p1"⟩]
      [⟨"d1", "k1", 7/10, 0, SourceKind.knowledge⟩] ["turn"] 2).1,
   (assemble_budget (detect "hi") [⟨"t1", "http://a", "s1", "p1"⟩, ⟨"t2", "http://b", "s2", "p1"⟩]
      [⟨"d1", "k1", 7/10, 0, SourceKind.knowledge⟩] ["turn"] 2).2.1⟩

/-- C4: for every query (represented by the raw index answers) and topK,
the hits returned by `retrieve` are sorted by `similarityScore`
descending with ties broken by insertion recency (most recent first), and
each hit's `similarityScore` is 1 minus the raw vector distance reported
by the index. -/
theorem retrieve_sorted_by_similarity (raw : List RawIndexEntry) (topK : Nat) :
    (retrieve raw topK).Sorted hitGE ∧
    ∀ h ∈ retrieve raw topK, ∃ e ∈ raw,
      h = toKnowledgeHit e ∧ h.similarityScore = 1 - e.distance := by
  constructor
  · exact (List.sorted_insertionSort hitGE _).sublist (List.take_sublist _ _)
  · intro h hh
    have h1 : h ∈ List.insertionSort hitGE (raw.map toKnowledgeHit) :=
      List.mem_of_mem_take hh
    have h2 : h ∈ raw.map toKnowledgeHit :=
      (List.perm_insertionSort hitGE _).mem_iff.mp h1
    obtain ⟨e, he, heq⟩ := List.mem_map.mp h2
    refine ⟨e, he, heq.symm, ?_⟩
    rw [← heq]
    rfl

/-- C4 witness: a concrete index answer set is returned in similarity
order. -/
theorem retrieve_sorted_by_similarity_witness :
    (retrieve [⟨"d1", "t1", 4/10, 0, SourceKind.knowledge⟩,
        ⟨"d2", "t2", 2/10, 1, SourceKind.conversation⟩] 2).Sorted hitGE :=
  (retrieve_sorted_by_similarity
    [⟨"d1", "t1", 4/10, 0, SourceKind.knowledge⟩,
     ⟨"d2", "t2", 2/10, 1, SourceKind.conversation⟩] 2).1

/-- A context source is flagged as knowledge exactly when its type tag is
`knowledge`. -/
theorem isKnowledgeCS_iff (s : ContextSource) :
    isKnowledgeCS s = true ↔ s.type = ContextSourceType.knowledge := by
  cases h : s.type <;> simp [isKnowledgeCS, h]

/-- The detector votes for search exactly when at least one lexical
indicator matched (with the spec's constants, one match already reaches
the 0.5 threshold). -/
theorem detect_shouldSearch_iff_count (q : String) :
    (detect q).shouldSearch = true ↔
      1 ≤ (allIndicators.filter (fun ind => indicatorMatches ind q)).length := by
  unfold detect
  simp only [decide_eq_true_iff]
  unfold configuredThreshold thresholdConstant
  constructor
  · intro h
    by_contra hn
    push_neg at hn
    have h0 : (allIndicators.filter (fun ind => indicatorMatches ind q)).length = 0 :=
      Nat.lt_one_iff.mp hn
    rw [h0] at h
    norm_num at h
  · intro h
    have h1 : (1 : ℚ) ≤ ((allIndicators.filter (fun ind => indicatorMatches ind q)).length : ℚ) := by
      exact_mod_cast h
    refine le_min (by norm_num) ?_
    linarith

/-- C5: `searchUsed` of the assembled context is true iff the
orchestrator was invoked (the detector voted for search) and returned at
least one result, and `ragUsed` is true iff at least one knowledge hit is
included in the final, post-truncation sources list. -/
theorem context_usage_flags (query : String) (ps : List Provider)
    (store : Except String (List RawIndexEntry)) (topK : Nat)
    (recentTurns : List String) (budget : Nat) :
    ((detectAndSearch query ps store topK recentTurns budget).searchUsed = true ↔
      ((detect query).shouldSearch = true ∧ (searchAll ps).1 ≠ [])) ∧
    ((detectAndSearch query ps store topK recentTurns budget).ragUsed = true ↔
      ∃ s ∈ (detectAndSearch query ps store topK recentTurns budget).sources,
        s.type = ContextSourceType.knowledge) := by
  constructor
  · unfold detectAndSearch assemble
    cases hs : (detect query).shouldSearch
    · simp [hs]
    · simp [hs]
  · unfold detectAndSearch assemble
    simp only [List.any_eq_true]
    constructor
    · rintro ⟨s, hs, hks⟩
      exact ⟨s, hs, (isKnowledgeCS_iff s).mp hks⟩
    · rintro ⟨s, hs, hty⟩
      exact ⟨s, hs, (isKnowledgeCS_iff s).mpr hty⟩

/-- C5 witness: a search-worthy query with one successful provider yields
`searchUsed = true`. -/
theorem context_usage_flags_witness :
    (detectAndSearch "latest news"
      [⟨⟨"duckduckgo", true⟩, Except.ok [⟨"t", "http://a", "s", "duckduckgo"⟩]⟩]
      (Except.error "down") 3 [] 3).searchUsed = true :=
  (context_usage_flags "latest news"
    [⟨⟨"duckduckgo", true⟩, Except.ok [⟨"t", "http://a", "s", "duckduckgo"⟩]⟩]
    (Except.error "down") 3 [] 3).1.mpr
    ⟨(detect_shouldSearch_iff_count "latest news").mpr (by decide), by decide⟩

/-- Once a normalized URL is in `seen`, deduplication emits no further
result with that URL. -/
theorem dedupGo_filter_of_seen (url : String) :
    ∀ (l : List SearchResult) (seen : List String), seen.contains url = true →
      (dedupGo seen l).filter (fun r => normalizeUrl r.url == url) = [] := by
  intro l
  induction l with
  | nil =>
    intro seen _
    rfl
  | cons r rest ih =>
    intro seen hseen
    unfold dedupGo
    cases hc : seen.contains (normalizeUrl r.url)
    · have hne : (normalizeUrl r.url == url) = false := by
        refine beq_eq_false_iff_ne.mpr ?_
        intro heq
        rw [heq, hseen] at hc
        simp at hc
      simp only [hc, Bool.false_eq_true, if_false]
      rw [List.filter_cons_of_neg (by simpa using hne)]
      refine ih (normalizeUrl r.url :: seen) ?_
      have hmem : url ∈ seen := by simpa using hseen
      simp [List.contains_cons, hmem]
    · simp only [hc, if_true]
      exact ih seen hseen

/-- Deduplication keeps, for each normalized URL not yet seen, exactly
the first result carrying it. -/
theorem dedupGo_filter_first (url : String) :
    ∀ (l : List SearchResult) (seen : List String), seen.contains url = false →
      (dedupGo seen l).filter (fun r => normalizeUrl r.url == url) =
        (l.find? (fun r => normalizeUrl r.url == url)).toList := by
  intro l
  induction l with
  | nil =>
    intro seen _
    rfl
  | cons r rest ih =>
    intro seen hseen
    unfold dedupGo
    cases hc : seen.contains (normalizeUrl r.url)
    · simp only [hc, Bool.false_eq_true, if_false]
      cases hp : (normalizeUrl r.url == url)
      · rw [List.filter_cons_of_neg (by simpa using hp), List.find?_cons_of_neg _ (by simpa using hp)]
        refine ih (normalizeUrl r.url :: seen) ?_
        have hne : (url == normalizeUrl r.url) = false := by
          refine beq_eq_false_iff_ne.mpr ?_
          intro heq
          rw [← heq] at hp
          simp at hp
        have hmem : url ∉ seen := by simpa using hseen
        have hneq : url ≠ normalizeUrl r.url := by simpa using hne
        simp [List.contains_cons, hneq, hmem]
      · rw [List.filter_cons_of_pos (by simpa using hp), List.find?_cons_of_pos _ (by simpa using hp)]
        have hurl : normalizeUrl r.url = url := by simpa using hp
        have hdrop : (dedupGo (normalizeUrl r.url :: seen) rest).filter
            (fun s => normalizeUrl s.url == url) = [] := by
          refine dedupGo_filter_of_seen url rest (normalizeUrl r.url :: seen) ?_
          simp [List.contains_cons, hurl]
        rw [hdrop]
        rfl
    · have hne : (normalizeUrl r.url == url) = false := by
        refine beq_eq_false_iff_ne.mpr ?_
        intro heq
        rw [heq, hseen] at hc
        simp at hc
      simp only [hc, if_true]
      rw [List.find?_cons_of_neg _ (by simpa using hne)]
      exact ih seen hseen

/-- C3: whenever some provider's merged successful results contain a
given normalized URL, the deduplicated output of `searchAll` contains
exactly one result for that URL, namely its first occurrence in provider
priority order. -/
theorem searchAll_dedup_first (ps : List Provider) (url : String)
    (h : ∃ r ∈ combinedResults ps, normalizeUrl r.url = url) :
    ∃ r₀, (combinedResults ps).find? (fun r => normalizeUrl r.url == url) = some r₀ ∧
      normalizeUrl r₀.url = url ∧
      ((searchAll ps).1).filter (fun r => normalizeUrl r.url == url) = [r₀] := by
  have hsome : ((combinedResults ps).find? (fun r => normalizeUrl r.url == url)).isSome := by
    refine List.find?_isSome.mpr ?_
    obtain ⟨r, hr, hru⟩ := h
    exact ⟨r, hr, by simp [hru]⟩
  obtain ⟨r₀, hr₀⟩ := Option.isSome_iff_exists.mp hsome
  refine ⟨r₀, hr₀, ?_, ?_⟩
  · have := List.find?_some hr₀
    simpa using this
  · have hrw : (searchAll ps).1 = dedupGo [] (combinedResults ps) := rfl
    rw [hrw, dedupGo_filter_first url (combinedResults ps) [] rfl, hr₀]
    rfl

/-- C3 witness: two enabled providers return the same URL; the merged
output keeps exactly the higher-priority provider's result. -/
theorem searchAll_dedup_first_witness :
    ((searchAll [⟨⟨"p1", true⟩, Except.ok [⟨"A", "http://a", "sA", "p1"⟩]⟩,
        ⟨⟨"p2", true⟩, Except.ok [⟨"B", "http://a", "sB", "p2"⟩]⟩]).1).filter
      (fun r => normalizeUrl r.url == "http://a") = [⟨"A", "http://a", "sA", "p1"⟩] := by
  obtain ⟨r₀, hfind, _, hfilter⟩ := searchAll_dedup_first
    [⟨⟨"p1", true⟩, Except.ok [⟨"A", "http://a", "sA", "p1"⟩]⟩,
     ⟨⟨"p2", true⟩, Except.ok [⟨"B", "http://a", "sB", "p2"⟩]⟩] "http://a"
    ⟨⟨"A", "http://a", "sA", "p1"⟩, by decide, by decide⟩
  have hcalc : (combinedResults [⟨⟨"p1", true⟩, Except.ok [⟨"A", "http://a", "sA", "p1"⟩]⟩,
      ⟨⟨"p2", true⟩, Except.ok [⟨"B", "http://a", "sB", "p2"⟩]⟩]).find?
      (fun r => normalizeUrl r.url == "http://a") = some ⟨"A", "http://a", "sA", "p1"⟩ := by
    decide
  rw [hfind] at hcalc
  have hr : r₀ = ⟨"A", "http://a", "sA", "p1"⟩ := Option.some.inj hcalc
  rw [hr] at hfilter
  exact hfilter

/-- C6: starting from a provider state with no recorded failures, three
consecutive `recordFailure` calls (the default threshold) open the
circuit: `tryAcquire` refuses for the whole default cooldown window
counted from the last failure, and once the cooldown has elapsed it
grants exactly one half-open probe — the very next `tryAcquire` (before
any recorded outcome) refuses again. -/
theorem circuit_breaker_behaviour (st : ProviderState) (t1 t2 t3 : Nat)
    (h0 : st.failures = 0) :
    (∀ now, now < t3 + defaultCircuitConfig.cooldown →
      (tryAcquire defaultCircuitConfig now
        (recordFailure defaultCircuitConfig t3 (recordFailure defaultCircuitConfig t2
          (recordFailure defaultCircuitConfig t1 st)))).1 = false) ∧
    (∀ now, t3 + defaultCircuitConfig.cooldown ≤ now →
      (tryAcquire defaultCircuitConfig now
        (recordFailure defaultCircuitConfig t3 (recordFailure defaultCircuitConfig t2
          (recordFailure defaultCircuitConfig t1 st)))).1 = true ∧
      ∀ now2, (tryAcquire defaultCircuitConfig now2
        (tryAcquire defaultCircuitConfig now
          (recordFailure defaultCircuitConfig t3 (recordFailure defaultCircuitConfig t2
            (recordFailure defaultCircuitConfig t1 st)))).2).1 = false) := by
  have hst3 : recordFailure defaultCircuitConfig t3 (recordFailure defaultCircuitConfig t2
      (recordFailure defaultCircuitConfig t1 st)) =
      { st with failures := 3, phase := CircuitPhase.opened t3 } := by
    simp [recordFailure, defaultCircuitConfig, h0]
  constructor
  · intro now hnow
    rw [hst3]
    unfold tryAcquire
    simp [hnow]
  · intro now hnow
    have hge : ¬ now < t3 + defaultCircuitConfig.cooldown := not_lt.mpr hnow
    constructor
    · rw [hst3]
      unfold tryAcquire
      simp [hge]
    · intro now2
      rw [hst3]
      unfold tryAcquire
      simp [hge]

/-- C6 witness: three failures at times 0, 1, 2 keep `tryAcquire` false
at time 100, allow exactly one probe at time 60002, and refuse the next
call at time 70000. -/
theorem circuit_breaker_behaviour_witness :
    (tryAcquire defaultCircuitConfig 100
      (recordFailure defaultCircuitConfig 2 (recordFailure defaultCircuitConfig 1
        (recordFailure defaultCircuitConfig 0 initialProviderState)))).1 = false ∧
    (tryAcquire defaultCircuitConfig 60002
      (recordFailure defaultCircuitConfig 2 (recordFailure defaultCircuitConfig 1
        (recordFailure defaultCircuitConfig 0 initialProviderState)))).1 = true ∧
    (tryAcquire defaultCircuitConfig 70000
      (tryAcquire defaultCircuitConfig 60002
        (recordFailure defaultCircuitConfig 2 (recordFailure defaultCircuitConfig 1
          (recordFailure defaultCircuitConfig 0 initialProviderState)))).2).1 = false :=
  ⟨(circuit_breaker_behaviour initialProviderState 0 1 2 rfl).1 100 (by decide),
   ((circuit_breaker_behaviour initialProviderState 0 1 2 rfl).2 60002 (by decide)).1,
   ((circuit_breaker_behaviour initialProviderState 0 1 2 rfl).2 60002 (by decide)).2 70000⟩

/-- C7: a query matching a configured temporal indicator word makes the
detector vote for search; its confidence is `min 1 (matched count /
thresholdConstant)` and `shouldSearch` holds exactly when the confidence
reaches the configured threshold. -/
theorem detect_temporal_triggers_search (q : String)
    (h : ∃ t ∈ temporalIndicators, indicatorMatches t q = true) :
    (detect q).shouldSearch = true ∧
    (detect q).confidence =
      min 1 (((detect q).matchedIndicators.length : ℚ) / thresholdConstant) ∧
    ((detect q).shouldSearch = true ↔ configuredThreshold ≤ (detect q).confidence) := by
  have hcount : 1 ≤ (allIndicators.filter (fun ind => indicatorMatches ind q)).length := by
    obtain ⟨t, ht, hm⟩ := h
    have htall : t ∈ allIndicators :=
      List.mem_append.mpr (Or.inl (List.mem_append.mpr (Or.inl ht)))
    have hmem : t ∈ allIndicators.filter (fun ind => indicatorMatches ind q) :=
      List.mem_filter.mpr ⟨htall, hm⟩
    exact List.length_pos.mpr (List.ne_nil_of_mem hmem)
  refine ⟨(detect_shouldSearch_iff_count q).mpr hcount, rfl, ?_⟩
  unfold detect
  exact decide_eq_true_iff

/-- C7 witness: the query "latest ai developments" contains the temporal
indicator "latest" and is classified as search-worthy. -/
theorem detect_temporal_triggers_search_witness :
    (∃ t ∈ temporalIndicators, indicatorMatches t "latest ai developments" = true) ∧
    (detect "latest ai developments").shouldSearch = true :=
  ⟨by decide, (detect_temporal_triggers_search "latest ai developments" (by decide)).1⟩

/-- Looking a provider's completed response up in the completion log does
not depend on the log's (arrival) order, as long as no provider reported
twice. -/
theorem findResponse_perm :
    ∀ {c1 c2 : List (String × Except ProviderError (List SearchResult))},
      c1.Perm c2 → (c1.map Prod.fst).Nodup → ∀ id,
        findResponse id c1 = findResponse id c2 := by
  intro c1 c2 hperm
  induction hperm with
  | nil =>
    intro _ _
    rfl
  | cons x h ih =>
    intro hnd id
    obtain ⟨i, r⟩ := x
    have hnd' := (by simpa using hnd : _ ∧ _).2
    unfold findResponse
    by_cases hi : i = id
    · simp [hi]
    · simp [hi, ih hnd' id]
  | swap x y l =>
    intro hnd id
    obtain ⟨xi, xr⟩ := x
    obtain ⟨yi, yr⟩ := y
    have hall := (by simpa using hnd :
      (¬yi = xi ∧ ∀ x, (yi, x) ∉ l) ∧ (∀ x, (xi, x) ∉ l) ∧ (List.map Prod.fst l).Nodup)
    have hxy : yi ≠ xi := hall.1.1
    by_cases h1 : yi = id <;> by_cases h2 : xi = id
    · exact absurd (h1.trans h2.symm) hxy
    · simp [findResponse, h1, h2]
    · simp [findResponse, h1, h2]
    · simp [findResponse, h1, h2]
  | trans h1 h2 ih1 ih2 =>
    intro hnd id
    exact (ih1 hnd id).trans (ih2 ((h1.map Prod.fst).nodup_iff.mp hnd) id)

/-- C8: two executions receiving identical per-provider responses in
different completion (arrival) orders produce identical merged output:
the merge walks providers in configured priority order, so the result is
a pure function of the responses, not of arrival order. -/
theorem merge_arrival_order_invariant (configured : List ProviderConfig)
    (c1 c2 : List (String × Except ProviderError (List SearchResult)))
    (hperm : c1.Perm c2) (hnd : (c1.map Prod.fst).Nodup) :
    mergeByPriority configured c1 = mergeByPriority configured c2 := by
  have hf : ∀ id, findResponse id c1 = findResponse id c2 :=
    findResponse_perm hperm hnd
  unfold mergeByPriority
  simp only [hf]

/-- C8 witness: the same two completions delivered in either order merge
identically. -/
theorem merge_arrival_order_invariant_witness :
    mergeByPriority [⟨"p1", true⟩, ⟨"p2", true⟩]
      [("p1", Except.ok [⟨"A", "http://a", "sA", "p1"⟩]),
       ("p2", Except.ok [⟨"B", "http://b", "sB", "p2"⟩])] =
    mergeByPriority [⟨"p1", true⟩, ⟨"p2", true⟩]
      [("p2", Except.ok [⟨"B", "http://b", "sB", "p2"⟩]),
       ("p1", Except.ok [⟨"A", "http://a", "sA", "p1"⟩])] :=
  merge_arrival_order_invariant [⟨"p1", true⟩, ⟨"p2", true⟩]
    [("p1", Except.ok [⟨"A", "http://a", "sA", "p1"⟩]),
     ("p2", Except.ok [⟨"B", "http://b", "sB", "p2"⟩])]
    [("p2", Except.ok [⟨"B", "http://b", "sB", "p2"⟩]),
     ("p1", Except.ok [⟨"A", "http://a", "sA", "p1"⟩])]
    (List.Perm.swap _ _ _) (by decide)

end EvolveUI
